import Mathlib

/-! Verification of `src/alternative_imputers/mice_i.py` (the MICE imputation
engine of the Mice repository) against its natural-language specification.

The Python code is shallowly embedded:

* A pandas `DataFrame` becomes a `Table`: a row count together with a list of
  named, typed columns (the row index is the default `RangeIndex 0..nrows-1`,
  so row labels and row positions coincide).  The row count is carried
  explicitly because pandas keeps the index (hence the row count) even when
  every column has been dropped.
* A cell holds a `Val`: a numeric value (`Rat`, standing for a Python float),
  a categorical value (`String`), or the missing sentinel `na` (NaN).
* The LightGBM models produced by `get_model` are external collaborators; they
  are abstracted into an `Oracle` that maps the target dtype, the training
  matrix, the training targets and the prediction matrix to a list of
  predictions.  Every theorem below is universally quantified over the oracle.
* `np.random.permutation(len(nan_ids)).tolist()` is modelled by an explicit
  `perm : List Nat` parameter (one per pass, `perms : Nat -> List Nat` for a
  whole run).
* Python exceptions (`TypeError`, `KeyError`, `IndexError`, the `ValueError`s
  raised by `sklearn.metrics.mean_squared_error`) become `Except String`
  errors.  Wall-clock timing (`time_seconds` in `benchmark`) is not modelled.
-/

set_option linter.unusedVariables false

namespace Mice

/-- Column dtype: `is_numeric_dtype` distinguishes numeric columns from
categorical/object ones. -/
inductive Dtype
  | numeric
  | categorical
deriving DecidableEq

/-- A cell value: a float (modelled as `Rat`), a categorical label, or the
missing sentinel NaN. -/
inductive Val
  | num (q : Rat)
  | cat (s : String)
  | na
deriving DecidableEq

/-- A named, typed pandas column. -/
structure Column where
  name : String
  dtype : Dtype
  cells : List Val
deriving DecidableEq

/-- A pandas DataFrame with the default integer index: `nrows` is the length
of the index (kept even if all columns are dropped); each column's `cells`
list has length `nrows` for well-formed frames. -/
structure Table where
  nrows : Nat
  cols : List Column
deriving DecidableEq

def ncols (t : Table) : Nat := t.cols.length

/-- Positional cell read (`df.iloc[r, c]` as an rvalue); out-of-range reads
default to `na` (well-formed tables never exercise the default). -/
def getCell (t : Table) (r c : Nat) : Val :=
  match t.cols[c]? with
  | none => Val.na
  | some col => col.cells.getD r Val.na

/-- Positional cell write (`df.iloc[r, c] = v`); pandas raises `IndexError`
when the position is out of bounds, modelled by `none`. -/
def setCell (t : Table) (r c : Nat) (v : Val) : Option Table :=
  match t.cols[c]? with
  | none => none
  | some col =>
    if r < t.nrows then
      some ⟨t.nrows, t.cols.set c { col with cells := col.cells.set r v }⟩
    else none

/-- `np.argwhere(df.isna().values).tolist()` (line 28 / line 55): the list of
`(row, column)` coordinates of missing cells, in row-major order. -/
def nanIdsOf (t : Table) : List (Nat × Nat) :=
  (List.range t.nrows).flatMap fun r =>
    (List.range (ncols t)).filterMap fun c =>
      if getCell t r c = Val.na then some (r, c) else none

/-- `df_missing.isna().sum()` filtered to positive counts (lines 53-54): the
names of the columns that contain at least one missing cell. -/
def columnsMissingOf (t : Table) : List String :=
  (t.cols.filter fun c => c.cells.any fun v => v = Val.na).map (·.name)

/-- `df.isna().values.any()` is false: the table has no missing cell. -/
def noMissing (t : Table) : Bool :=
  t.cols.all fun c => c.cells.all fun v => v ≠ Val.na

/-- Mean of the present values of a column (`Series.mean()` skips NaN; it is
NaN itself when no value is present, modelled as `none`). -/
def colMean (cells : List Val) : Option Rat :=
  let xs := cells.filterMap fun v =>
    match v with
    | Val.num q => some q
    | _ => none
  if xs.length = 0 then none else some (xs.sum / (xs.length : Rat))

/-- `df_new[column].fillna(df_new[column].mean())` for a numeric column
(line 111): every NaN cell is replaced by the column mean of the present
values; when the mean is itself NaN (empty column) nothing changes. -/
def fillNumColumn (c : Column) : Column :=
  match colMean c.cells with
  | none => c
  | some m => { c with cells := c.cells.map fun v => if v = Val.na then Val.num m else v }

/-- Structurally recursive lexicographic comparison on strings (byte-wise on
code points), used to model numpy's sort of the mode values. -/
def strLeAux : List Char → List Char → Bool
  | [], _ => true
  | _ :: _, [] => false
  | a :: as, b :: bs =>
    if a.val.toNat < b.val.toNat then true
    else if a.val.toNat = b.val.toNat then strLeAux as bs
    else false

def strLe (a b : String) : Bool := strLeAux a.data b.data

def insertSorted (s : String) : List String → List String
  | [] => [s]
  | t :: ts => if strLe s t then s :: t :: ts else t :: insertSorted s ts

def sortStrings (l : List String) : List String := l.foldr insertSorted []

def countOcc (l : List String) (s : String) : Nat := (l.filter fun x => x = s).length

/-- `Series.mode()` for an object column: the present values of maximal
frequency, sorted ascending, as a Series indexed `0, 1, ...`. -/
def modesOf (cells : List Val) : List String :=
  let xs := cells.filterMap fun v =>
    match v with
    | Val.cat s => some s
    | _ => none
  let uniq := xs.eraseDups
  let m := (uniq.map (countOcc xs)).foldr max 0
  sortStrings (uniq.filter fun s => countOcc xs s = m)

/-- `df_new[column].fillna(df_new[column].mode())` for a categorical column
(line 113).  `mode()` returns a Series (indexed `0..k-1`), and `fillna` with a
Series aligns on the index: the NaN cell at row label `r` receives the mode
Series' value at label `r` when that label exists, and is left NaN otherwise.
(The row labels are the default `0..nrows-1` positions.) -/
def fillCatColumn (c : Column) : Column :=
  let ms := modesOf c.cells
  { c with
    cells := c.cells.enum.map fun p =>
      if p.2 = Val.na then
        match ms[p.1]? with
        | some s => Val.cat s
        | none => Val.na
      else p.2 }

/-- `BaseMICE.impute_initial_mean_or_mode` (lines 107-114): copies the frame
(`df.copy()`, so the input is not mutated) and fills each column with its mean
(numeric dtype) or via `fillna(mode())` (otherwise). -/
def impute_initial_mean_or_mode (t : Table) : Table :=
  ⟨t.nrows, t.cols.map fun c =>
    match c.dtype with
    | Dtype.numeric => fillNumColumn c
    | Dtype.categorical => fillCatColumn c⟩

/-- The columns of `pd.get_dummies(X, drop_first=True)` derived from one
categorical column: one 0/1 indicator per category except the first, where the
categories are the distinct present values in ascending order (NaN is not a
category; a NaN cell encodes as all zeros). -/
def dummyCategories (c : Column) : List String :=
  (sortStrings ((c.cells.filterMap fun v =>
    match v with
    | Val.cat s => some s
    | _ => none).eraseDups)).drop 1

/-- Row `r` of `pd.get_dummies(X, drop_first=True)` (line 132 / 155): the
non-encoded (numeric) columns in original order, followed by the indicator
columns of each categorical column in original order. -/
def featureRow (t : Table) (r : Nat) : List Val :=
  ((t.cols.filter fun c => c.dtype = Dtype.numeric).map fun c => c.cells.getD r Val.na)
  ++ ((t.cols.filter fun c => c.dtype = Dtype.categorical).flatMap fun c =>
       (dummyCategories c).map fun s =>
         if c.cells.getD r Val.na = Val.cat s then Val.num 1 else Val.num 0)

/-- The encoded feature matrix, one list per row. -/
def featureRows (t : Table) : List (List Val) :=
  (List.range t.nrows).map (featureRow t)

/-- `df.drop(columns=[name], axis=1)`: removes every column with that name,
keeping the row index (hence `nrows`). -/
def dropColumnByName (t : Table) (name : String) : Table :=
  ⟨t.nrows, t.cols.filter fun c => c.name ≠ name⟩

/-- `df.drop(columns=names, axis=1)` used by `benchmark` for
`drop_columns_loss`. -/
def dropColumns (t : Table) (names : List String) : Table :=
  ⟨t.nrows, t.cols.filter fun c => ¬ names.contains c.name⟩

/-- `df[name]`: the (first) column of that name. -/
def findColumn (t : Table) (name : String) : Option Column :=
  t.cols.find? fun c => c.name = name

/-- The external model collaborator (`get_model(y).fit(trainX, trainY)
.predict(testX)` in one step): `get_model` dispatches on
`is_numeric_dtype(target)` (lines 96-101), so the oracle receives the target
dtype, the training features and targets, and the rows to predict. -/
def Oracle : Type :=
  Dtype → List (List Val) → List Val → List (List Val) → List Val

/-- Ghost instrumentation recording one model fit/predict step: the target
column and the row positions used for training (for the feature matrix and
the target vector separately) and for prediction. -/
structure FitRecord where
  targetColumn : String
  trainXRows : List Nat
  trainYRows : List Nat
  predictRows : List Nat
deriving DecidableEq

/-- Lines 129-138 of `VanilaMICE.transform` for one work unit `(rowId, colId)`:
build `X = get_dummies(df.drop(columns=[target]), drop_first=True)` and
`y = df[target]`, drop the row labelled `rowId` from both (`X.drop(index=
row_id)`, `y.drop(index=row_id)`; with the default index, pandas raises
`KeyError` when the label `rowId` does not exist), fit the model and predict
on `X.iloc[row_id:row_id+1, :]`.  Returns the predicted value (line 139
assigns the single element of the length-one prediction array) together with
the fit record. -/
def fitPredictValue (o : Oracle) (df : Table) (rowId colId : Nat) :
    Except String (Val × FitRecord) :=
  match df.cols[colId]? with
  | none => Except.error "IndexError: index out of bounds"
  | some col =>
    let targetName := col.name
    let Xe := featureRows (dropColumnByName df targetName)
    match findColumn df targetName with
    | none => Except.error "KeyError: column not found"
    | some ycol =>
      if rowId < df.nrows then
        let trainXRows := (List.range df.nrows).filter fun i => i ≠ rowId
        let trainYRows := (List.range df.nrows).filter fun i => i ≠ rowId
        let trainX := trainXRows.filterMap fun i => Xe[i]?
        let trainY := trainYRows.filterMap fun i => ycol.cells[i]?
        let testX := (Xe.drop rowId).take 1
        let preds := o ycol.dtype trainX trainY testX
        Except.ok (preds.headD Val.na, ⟨targetName, trainXRows, trainYRows, [rowId]⟩)
      else Except.error "KeyError: label not found in axis"

/-- One iteration of the loop of `VanilaMICE.transform` (lines 127-139): look
up `nan_ids[id]`, fit/predict, and write the prediction back with
`df.iloc[row_id, col_id] = ...`. -/
def vanilaStep (o : Oracle) (nanIds : List (Nat × Nat))
    (st : Table × List FitRecord) (id : Nat) :
    Except String (Table × List FitRecord) :=
  match nanIds[id]? with
  | none => Except.error "IndexError: list index out of range"
  | some (rowId, colId) =>
    match fitPredictValue o st.1 rowId colId with
    | Except.error e => Except.error e
    | Except.ok (v, rec1) =>
      match setCell st.1 rowId colId v with
      | none => Except.error "IndexError: single positional indexer is out-of-bounds"
      | some t' => Except.ok (t', st.2 ++ [rec1])

/-- `VanilaMICE.transform` (lines 125-140): cell-level pass.  `perm` stands
for `np.random.permutation(len(nan_ids)).tolist()`; each listed unit is one
missing cell, handled sequentially on the mutated frame. -/
def vanilaTransform (o : Oracle) (perm : List Nat) (df : Table)
    (columnsMissing : List String) (nanIds : List (Nat × Nat)) (iterId : Nat) :
    Except String (Table × List FitRecord) :=
  perm.foldlM (vanilaStep o nanIds) (df, [])

/-- One iteration of the loop of `FastMICE.transform` (lines 150-163).  The
loop variable is `column_id`, but the body's first statement (line 152) is
`row_id, col_id = nan_ids[id]`, where `id` is the Python *builtin function*
(the comprehension on line 157 does not bind `id` in the enclosing scope), so
indexing the list with it raises
`TypeError: list indices must be integers or slices, not
builtin_function_or_method` before any model is fitted or any cell written. -/
def fastStep (nanIds : List (Nat × Nat)) (st : Table × List FitRecord)
    (columnId : Nat) : Except String (Table × List FitRecord) :=
  Except.error "TypeError: list indices must be integers or slices, not builtin_function_or_method"

/-- `FastMICE.transform` (lines 148-164): the intended column-level pass.  It
draws `perm = np.random.permutation(len(nan_ids)).tolist()` — a permutation of
the *missing-cell* count, not of the missing columns — and every loop body
execution raises `TypeError` at line 152 (see `fastStep`). -/
def fastTransform (o : Oracle) (perm : List Nat) (df : Table)
    (columnsMissing : List String) (nanIds : List (Nat × Nat)) (iterId : Nat) :
    Except String (Table × List FitRecord) :=
  perm.foldlM (fastStep nanIds) (df, [])

/-- The four strategy classes. -/
inductive Strategy
  | vanila
  | fast
  | slowFast
  | fastSlow
deriving DecidableEq

/-- The `transform` method of each strategy, as called with the four
positional arguments `(df, columns_missing, nan_ids, iter_id)`.
`SlowFastMICE.transform` (lines 180-184) delegates to its `vanila_mice` on
iteration 0 and to `fast_mice` otherwise; `FastSlowMICE.transform`
(lines 200-204) delegates to `vanila_mice` exactly when
`iter_id + 1 == self.max_iter`. -/
def transform (s : Strategy) (maxIter : Nat) (o : Oracle) (perm : List Nat)
    (df : Table) (columnsMissing : List String) (nanIds : List (Nat × Nat))
    (iterId : Nat) : Except String (Table × List FitRecord) :=
  match s with
  | Strategy.vanila => vanilaTransform o perm df columnsMissing nanIds iterId
  | Strategy.fast => fastTransform o perm df columnsMissing nanIds iterId
  | Strategy.slowFast =>
    if iterId > 0 then fastTransform o perm df columnsMissing nanIds iterId
    else vanilaTransform o perm df columnsMissing nanIds iterId
  | Strategy.fastSlow =>
    if iterId + 1 = maxIter then vanilaTransform o perm df columnsMissing nanIds iterId
    else fastTransform o perm df columnsMissing nanIds iterId

/-- One pass of the iteration controller: apply `transform` for the current
iteration and accumulate the fit records. -/
def passStep (s : Strategy) (maxIter : Nat) (o : Oracle) (perms : Nat → List Nat)
    (columnsMissing : List String) (nanIds : List (Nat × Nat))
    (st : Table × List FitRecord) (it : Nat) :
    Except String (Table × List FitRecord) :=
  match transform s maxIter o (perms it) st.1 columnsMissing nanIds it with
  | Except.error e => Except.error e
  | Except.ok (t', recs') => Except.ok (t', st.2 ++ recs')

/-- The chained-equations loop `for iter in range(self.max_iter):
df_imputed = self.transform(df_imputed, columns_missing, nan_ids, iter)` as
`benchmark` runs it (lines 60-62), without the timing/loss instrumentation:
the table output by one pass is the input of the next. -/
def runPasses (s : Strategy) (maxIter : Nat) (o : Oracle) (perms : Nat → List Nat)
    (columnsMissing : List String) (nanIds : List (Nat × Nat)) (t : Table) :
    Except String (Table × List FitRecord) :=
  (List.range maxIter).foldlM (passStep s maxIter o perms columnsMissing nanIds) (t, [])

/-- `BaseMICE.fill_missing_values` (lines 15-33).  It computes `nan_ids`,
mean/mode-initializes the frame, and then loops
`df_imputed = self.transform(df_imputed, nan_ids, iter)` (line 32) — a call
with **three** positional arguments, while every concrete `transform` takes
four (`df, columns_missing, nan_ids, iter_id`).  Python therefore raises
`TypeError` on the first loop iteration; with `max_iter = 0` the loop body
never runs and the initialized copy is returned (with no model fitted, hence
the empty fit-record list). -/
def fill_missing_values (s : Strategy) (maxIter : Nat) (df : Table) :
    Except String (Table × List FitRecord) :=
  let nanIds := nanIdsOf df
  let dfImputed := impute_initial_mean_or_mode df
  (List.range maxIter).foldlM
    (fun st it =>
      (Except.error "TypeError: transform() missing 1 required positional argument: iter_id"
        : Except String (Table × List FitRecord)))
    (dfImputed, [])

def isNum : Val → Bool
  | Val.num _ => true
  | _ => false

def toRatD : Val → Rat
  | Val.num q => q
  | _ => 0

/-- All cells of the table in row-major order (the 2-D array
`sklearn` builds from the DataFrame). -/
def cellsRowMajor (t : Table) : List Val :=
  (List.range t.nrows).flatMap fun r =>
    (List.range (ncols t)).map fun c => getCell t r c

/-- `BaseMICE.compute_loss` (lines 103-105), i.e.
`mean_squared_error(original_df, filled_df)`: both frames are converted to
float arrays — raising `ValueError` when a cell cannot be converted (a
categorical value) or is NaN, or when the shapes differ — and the result is
the mean over all cells of the squared elementwise difference. -/
def compute_loss (a b : Table) : Except String Rat :=
  if a.nrows = b.nrows ∧ ncols a = ncols b
      ∧ (cellsRowMajor a).all isNum ∧ (cellsRowMajor b).all isNum then
    Except.ok
      ((List.zipWith (fun x y => (x - y) * (x - y))
          ((cellsRowMajor a).map toRatD) ((cellsRowMajor b).map toRatD)).sum
        / ((cellsRowMajor a).length : Rat))
  else Except.error "ValueError: input is not numeric, contains NaN, or shapes differ"

/-- The result record appended by `benchmark` each iteration (lines 69-73);
the wall-clock `time_seconds` field is instrumentation outside the model. -/
structure IterResult where
  iter : Nat
  loss : Rat
deriving DecidableEq

/-- One iteration of the loop of `benchmark` (lines 60-73): run the pass (with
the correct four positional arguments), then compute the loss against the
original frame — dropping `drop_columns_loss` from both sides when that
argument is truthy (a non-empty list; `None` and `[]` are both falsy). -/
def benchStep (s : Strategy) (maxIter : Nat) (o : Oracle) (perms : Nat → List Nat)
    (dfOriginal : Table) (dropColumnsLoss : List String)
    (columnsMissing : List String) (nanIds : List (Nat × Nat))
    (st : Table × List IterResult) (it : Nat) :
    Except String (Table × List IterResult) :=
  match transform s maxIter o (perms it) st.1 columnsMissing nanIds it with
  | Except.error e => Except.error e
  | Except.ok (t', recs') =>
    match (if dropColumnsLoss ≠ [] then
            compute_loss (dropColumns dfOriginal dropColumnsLoss) (dropColumns t' dropColumnsLoss)
          else compute_loss dfOriginal t') with
    | Except.error e => Except.error e
    | Except.ok loss => Except.ok (t', st.2 ++ [⟨it, loss⟩])

/-- `BaseMICE.benchmark` (lines 35-74): computes `columns_missing` and
`nan_ids` from the missing frame, mean/mode-initializes it, and then per
iteration calls `self.transform(df_imputed, columns_missing, nan_ids, iter)`
(line 62 — the correct four-argument call) and records `{iter, time_seconds,
loss}`.  `drop_columns_loss = None` is modelled by the empty list (both are
falsy at line 64). -/
def benchmark (s : Strategy) (maxIter : Nat) (o : Oracle) (perms : Nat → List Nat)
    (dfOriginal dfMissing : Table) (dropColumnsLoss : List String) :
    Except String (List IterResult) :=
  let columnsMissing := columnsMissingOf dfMissing
  let nanIds := nanIdsOf dfMissing
  let dfImputed := impute_initial_mean_or_mode dfMissing
  match (List.range maxIter).foldlM
      (benchStep s maxIter o perms dfOriginal dropColumnsLoss columnsMissing nanIds)
      (dfImputed, []) with
  | Except.error e => Except.error e
  | Except.ok (t', results) => Except.ok results

/-! Concrete fixtures used by counterexamples and witnesses -/

/-- An oracle (model) that always predicts the label `"b"`. -/
def catOracle : Oracle := fun _ _ _ _ => [Val.cat "b"]

/-- An oracle (model) that always predicts the number 5. -/
def constOracle : Oracle := fun _ _ _ _ => [Val.num 5]

/-- An oracle (model) that predicts nothing. -/
def zeroOracle : Oracle := fun _ _ _ _ => []

/-- A 3-row table with one categorical column `pet` = `["a", "a", NaN]`. -/
def exCatTable : Table :=
  ⟨3, [⟨"pet", Dtype.categorical, [Val.cat "a", Val.cat "a", Val.na]⟩]⟩

/-- A complete 3-row table with one numeric column `x` = `[1, 2, 3]`. -/
def exOriginal : Table :=
  ⟨3, [⟨"x", Dtype.numeric, [Val.num 1, Val.num 2, Val.num 3]⟩]⟩

/-- `exOriginal` with the middle cell missing: `x` = `[1, NaN, 3]`. -/
def exMissing : Table :=
  ⟨3, [⟨"x", Dtype.numeric, [Val.num 1, Val.na, Val.num 3]⟩]⟩

/-- The table produced by one cell-level pass of `catOracle` over
`exCatTable` (the remaining NaN is predicted as `"b"`). -/
def exAfter : Table :=
  ⟨3, [⟨"pet", Dtype.categorical, [Val.cat "a", Val.cat "a", Val.cat "b"]⟩]⟩

/-- The fit record of that single pass: target `pet`, trained on rows 0 and 1,
predicting row 2. -/
def exRec : FitRecord := ⟨"pet", [0, 1], [0, 1], [2]⟩

/-! Helper lemmas -/

theorem mem_of_getElem_some {α : Type} {l : List α} {i : Nat} {a : α}
    (h : l[i]? = some a) : a ∈ l := by
  obtain ⟨hlt, he⟩ := List.getElem?_eq_some.mp h
  exact he ▸ List.getElem_mem hlt

theorem except_bind_ok {α β : Type} {x : Except String α} {f : α → Except String β} {b : β}
    (h : x >>= f = Except.ok b) : ∃ a, x = Except.ok a ∧ f a = Except.ok b := by
  cases x with
  | error e => exact absurd h (by simp [Bind.bind, Except.bind])
  | ok a => exact ⟨a, rfl, by simpa [Bind.bind, Except.bind] using h⟩

/-- Invariant preservation through an `Except`-valued left fold. -/
theorem foldlM_inv {α β : Type} {f : α → β → Except String α} (P : α → Prop)
    (hf : ∀ a b a', P a → f a b = Except.ok a' → P a') :
    ∀ (l : List β) (a a' : α), P a → l.foldlM f a = Except.ok a' → P a' := by
  intro l
  induction l with
  | nil =>
    intro a a' hP h
    rw [List.foldlM_nil] at h
    have ha : a = a' := by simpa [pure, Except.pure] using h
    exact ha ▸ hP
  | cons x xs ih =>
    intro a a' hP h
    rw [List.foldlM_cons] at h
    obtain ⟨a₁, h₁, h₂⟩ := except_bind_ok h
    exact ih a₁ a' (hf a x a₁ hP h₁) h₂

/-- A fold whose every step fails, fails as soon as the list is non-empty. -/
theorem foldlM_error_of_steps {α β : Type} {f : α → β → Except String α}
    (hf : ∀ a b, ∃ msg, f a b = Except.error msg) :
    ∀ (l : List β) (a : α), l ≠ [] → ∃ msg, l.foldlM f a = Except.error msg := by
  intro l a hne
  cases l with
  | nil => exact absurd rfl hne
  | cons x xs =>
    obtain ⟨msg, hm⟩ := hf a x
    refine ⟨msg, ?_⟩
    rw [List.foldlM_cons, hm]
    rfl

/-! Claim C1 -/

/-- C1: the claim says `fill_missing_values` runs the full pipeline to
completion for every strategy and `max_iter >= 1` and returns a fully imputed
table.  The code does not: line 32 calls `self.transform(df_imputed, nan_ids,
iter)` with three positional arguments while every strategy's `transform`
takes four, so the first loop iteration raises `TypeError` and no table is
ever returned. -/
theorem fill_missing_values_raises (s : Strategy) (maxIter : Nat) (df : Table)
    (h1 : 1 ≤ maxIter) :
    ∃ msg, fill_missing_values s maxIter df = Except.error msg := by
  unfold fill_missing_values
  exact foldlM_error_of_steps (fun a b => ⟨_, rfl⟩) _ _
    (by simp [List.range_eq_nil]; omega)

theorem fill_missing_values_raises_witness :
    1 ≤ 2 ∧ ∃ msg, fill_missing_values Strategy.vanila 2 exMissing = Except.error msg :=
  ⟨by decide, fill_missing_values_raises Strategy.vanila 2 exMissing (by decide)⟩

/-! Claim C2 -/

/-- C2: the claim says a `FastMICE.transform` pass visits exactly the columns
that contain missing positions, each once.  The code does not: it permutes
`len(nan_ids)` — the number of missing *cells* — and the first statement of
every loop-body execution, `row_id, col_id = nan_ids[id]` (line 152), indexes
the list with the Python builtin function `id` (the loop variable is
`column_id`), raising `TypeError`; so any pass with at least one missing cell
aborts without handling a single column. -/
theorem fastMICE_pass_raises (o : Oracle) (perm : List Nat) (df : Table)
    (columnsMissing : List String) (nanIds : List (Nat × Nat)) (iterId : Nat)
    (hlen : perm.length = nanIds.length) (hne : nanIds ≠ []) :
    ∃ msg, fastTransform o perm df columnsMissing nanIds iterId = Except.error msg := by
  unfold fastTransform
  refine foldlM_error_of_steps (fun a b => ⟨_, rfl⟩) _ _ ?_
  intro hp
  exact hne (List.length_eq_zero.mp (by rw [← hlen, hp]; rfl))

theorem fastMICE_pass_raises_witness :
    ∃ msg, fastTransform catOracle [0] exCatTable ["pet"] [(2, 0)] 0 = Except.error msg :=
  fastMICE_pass_raises catOracle [0] exCatTable ["pet"] [(2, 0)] 0 (by decide) (by decide)

/-! Claim C3 -/

/-- C3: the claim says every missing categorical cell receives the column's
mode.  Counterexample: in the column `["a", "a", NaN]` the mode is `["a"]`
(a Series with the single index 0), and `fillna(mode())` aligns that Series
with the row labels, so the missing cell at row 2 receives nothing and stays
NaN. -/
theorem impute_initial_mode_bug :
    modesOf [Val.cat "a", Val.cat "a", Val.na] = ["a"]
    ∧ getCell exCatTable 2 0 = Val.na
    ∧ getCell (impute_initial_mean_or_mode exCatTable) 2 0 = Val.na := by
  refine ⟨rfl, rfl, rfl⟩

/-! Claim C7 -/

/-- C7: `SlowFastMICE.transform` dispatches to the cell-level
(`VanilaMICE`) pass exactly on iteration 0 and to the column-level
(`FastMICE`) pass on every iteration `1..max_iter-1`, while
`FastSlowMICE.transform` dispatches to the cell-level pass exactly on the
final iteration `max_iter-1` and to the column-level pass on every earlier
iteration. -/
theorem hybrid_dispatch (maxIter : Nat) (h2 : 2 ≤ maxIter) (o : Oracle)
    (perm : List Nat) (df : Table) (columnsMissing : List String)
    (nanIds : List (Nat × Nat)) (it : Nat) :
    (transform Strategy.slowFast maxIter o perm df columnsMissing nanIds 0
       = vanilaTransform o perm df columnsMissing nanIds 0)
    ∧ (1 ≤ it → it ≤ maxIter - 1 →
        transform Strategy.slowFast maxIter o perm df columnsMissing nanIds it
          = fastTransform o perm df columnsMissing nanIds it)
    ∧ (transform Strategy.fastSlow maxIter o perm df columnsMissing nanIds (maxIter - 1)
       = vanilaTransform o perm df columnsMissing nanIds (maxIter - 1))
    ∧ (it < maxIter - 1 →
        transform Strategy.fastSlow maxIter o perm df columnsMissing nanIds it
          = fastTransform o perm df columnsMissing nanIds it) := by
  refine ⟨?_, ?_, ?_, ?_⟩
  · simp [transform]
  · intro hl hu
    unfold transform
    rw [if_pos (by omega : it > 0)]
  · unfold transform
    rw [if_pos (by omega : maxIter - 1 + 1 = maxIter)]
  · intro hu
    unfold transform
    rw [if_neg (by omega : ¬ it + 1 = maxIter)]

theorem hybrid_dispatch_witness :
    (transform Strategy.slowFast 3 zeroOracle [] exCatTable [] [] 0
       = vanilaTransform zeroOracle [] exCatTable [] [] 0)
    ∧ (1 ≤ 1 → 1 ≤ 3 - 1 →
        transform Strategy.slowFast 3 zeroOracle [] exCatTable [] [] 1
          = fastTransform zeroOracle [] exCatTable [] [] 1)
    ∧ (transform Strategy.fastSlow 3 zeroOracle [] exCatTable [] [] (3 - 1)
       = vanilaTransform zeroOracle [] exCatTable [] [] (3 - 1))
    ∧ (1 < 3 - 1 →
        transform Strategy.fastSlow 3 zeroOracle [] exCatTable [] [] 1
          = fastTransform zeroOracle [] exCatTable [] [] 1) :=
  hybrid_dispatch 3 (by decide) zeroOracle [] exCatTable [] [] 1

/-! Claim C8 -/

/-- C8: the claim says that on a table with no missing values every strategy's
`fill_missing_values` returns the input unchanged.  The code does not: the
three-argument `self.transform(...)` call on line 32 raises `TypeError` before
any transform runs, regardless of whether anything is missing, whenever
`max_iter >= 1`. -/
theorem fill_complete_input_raises (s : Strategy) (maxIter : Nat) (df : Table)
    (hc : noMissing df = true) (h1 : 1 ≤ maxIter) :
    ∃ msg, fill_missing_values s maxIter df = Except.error msg := by
  unfold fill_missing_values
  exact foldlM_error_of_steps (fun a b => ⟨_, rfl⟩) _ _
    (by simp [List.range_eq_nil]; omega)

theorem fill_complete_input_raises_witness :
    noMissing exOriginal = true ∧ 1 ≤ 1 ∧
      ∃ msg, fill_missing_values Strategy.fast 1 exOriginal = Except.error msg :=
  ⟨by decide, by decide,
    fill_complete_input_raises Strategy.fast 1 exOriginal (by decide) (by decide)⟩

/-! Claim C9 -/

/-- C9: with `max_iter = 0` the loop body of `fill_missing_values` never runs:
the function returns exactly the mean/mode-initialized copy of the input and
fits no model (empty fit-record list).  The input itself is untouched because
`impute_initial_mean_or_mode` operates on `df.copy()`. -/
theorem fill_missing_values_zero_iters (s : Strategy) (df : Table) :
    fill_missing_values s 0 df = Except.ok (impute_initial_mean_or_mode df, []) := rfl

/-! Claims C4 and C6: write-locality and leakage-freedom of the passes -/

theorem getCell_setCell_ne {t t' : Table} {r c : Nat} {v : Val}
    (h : setCell t r c v = some t') (r' c' : Nat) (hne : ¬ (r' = r ∧ c' = c)) :
    getCell t' r' c' = getCell t r' c' := by
  unfold setCell at h
  cases hc : t.cols[c]? with
  | none => simp only [hc] at h; cases h
  | some col =>
    simp only [hc] at h
    by_cases hr : r < t.nrows
    · rw [if_pos hr] at h
      injection h with h
      subst h
      unfold getCell
      by_cases hcc : c' = c
      · subst hcc
        have hclen : c' < t.cols.length := (List.getElem?_eq_some.mp hc).1
        rw [List.getElem?_set_self hclen, hc]
        have hrr : r' ≠ r := fun hr' => hne ⟨hr', rfl⟩
        show (col.cells.set r v).getD r' Val.na = col.cells.getD r' Val.na
        rw [List.getD_eq_getElem?_getD, List.getD_eq_getElem?_getD,
          List.getElem?_set_ne (fun he => hrr he.symm)]
      · rw [List.getElem?_set_ne (fun he => hcc he.symm)]
    · rw [if_neg hr] at h; cases h

theorem fitPredictValue_ok {o : Oracle} {df : Table} {rowId colId : Nat}
    {v : Val} {rec1 : FitRecord}
    (h : fitPredictValue o df rowId colId = Except.ok (v, rec1)) :
    rec1.predictRows = [rowId]
    ∧ rec1.trainXRows = (List.range df.nrows).filter (fun i => i ≠ rowId)
    ∧ rec1.trainYRows = (List.range df.nrows).filter (fun i => i ≠ rowId) := by
  simp only [fitPredictValue] at h
  split at h
  · cases h
  · split at h
    · cases h
    · split at h
      · simp only [Except.ok.injEq, Prod.mk.injEq] at h
        obtain ⟨hv, hr⟩ := h
        subst hr
        exact ⟨rfl, rfl, rfl⟩
      · cases h

/-- Every fit of a cell-level step trains on exactly the rows other than the
predicted one. -/
theorem fitPredictValue_rec_disjoint {o : Oracle} {df : Table}
    {rowId colId : Nat} {v : Val} {rec1 : FitRecord}
    (h : fitPredictValue o df rowId colId = Except.ok (v, rec1)) :
    ∀ i ∈ rec1.predictRows, i ∉ rec1.trainXRows ∧ i ∉ rec1.trainYRows := by
  obtain ⟨hp, hx, hy⟩ := fitPredictValue_ok h
  intro i hi
  rw [hp] at hi
  have hir : i = rowId := by simpa using hi
  subst hir
  constructor
  · rw [hx]
    intro hmem
    have := (List.mem_filter.mp hmem).2
    simp at this
  · rw [hy]
    intro hmem
    have := (List.mem_filter.mp hmem).2
    simp at this

theorem vanilaStep_ok {o : Oracle} {nanIds : List (Nat × Nat)}
    {st st' : Table × List FitRecord} {id : Nat}
    (h : vanilaStep o nanIds st id = Except.ok st') :
    ∃ rowId colId v rec1,
      nanIds[id]? = some (rowId, colId)
      ∧ fitPredictValue o st.1 rowId colId = Except.ok (v, rec1)
      ∧ setCell st.1 rowId colId v = some st'.1
      ∧ st'.2 = st.2 ++ [rec1] := by
  unfold vanilaStep at h
  split at h
  · cases h
  · rename_i rowId colId hnan
    split at h
    · cases h
    · rename_i v rec1 hfit
      split at h
      · cases h
      · rename_i t'' hset
        injection h with h
        subst h
        exact ⟨rowId, colId, v, rec1, hnan, hfit, hset, rfl⟩

theorem vanilaTransform_ok_diff {o : Oracle} {perm : List Nat} {df : Table}
    {cm : List String} {nanIds : List (Nat × Nat)} {it : Nat} {t' : Table}
    {recs : List FitRecord}
    (h : vanilaTransform o perm df cm nanIds it = Except.ok (t', recs)) :
    ∀ r c, getCell t' r c ≠ getCell df r c → (r, c) ∈ nanIds := by
  unfold vanilaTransform at h
  have hstep : ∀ (a : Table × List FitRecord) (b : Nat) a',
      (∀ r c, getCell a.1 r c ≠ getCell df r c → (r, c) ∈ nanIds) →
      vanilaStep o nanIds a b = Except.ok a' →
      (∀ r c, getCell a'.1 r c ≠ getCell df r c → (r, c) ∈ nanIds) := by
    intro a b a' hP ha
    obtain ⟨rowId, colId, v, rec1, hnan, hfit, hset, hrec⟩ := vanilaStep_ok ha
    intro r c hd
    by_cases hrc : r = rowId ∧ c = colId
    · obtain ⟨h1, h2⟩ := hrc
      subst h1; subst h2
      exact mem_of_getElem_some hnan
    · rw [getCell_setCell_ne hset r c hrc] at hd
      exact hP r c hd
  exact foldlM_inv _ hstep perm (df, []) (t', recs) (fun r c hd => absurd rfl hd) h

theorem vanilaTransform_ok_recs {o : Oracle} {perm : List Nat} {df : Table}
    {cm : List String} {nanIds : List (Nat × Nat)} {it : Nat} {t' : Table}
    {recs : List FitRecord}
    (h : vanilaTransform o perm df cm nanIds it = Except.ok (t', recs)) :
    ∀ rec ∈ recs, ∀ i ∈ rec.predictRows, i ∉ rec.trainXRows ∧ i ∉ rec.trainYRows := by
  unfold vanilaTransform at h
  have hstep : ∀ (a : Table × List FitRecord) (b : Nat) a',
      (∀ rec ∈ a.2, ∀ i ∈ rec.predictRows, i ∉ rec.trainXRows ∧ i ∉ rec.trainYRows) →
      vanilaStep o nanIds a b = Except.ok a' →
      (∀ rec ∈ a'.2, ∀ i ∈ rec.predictRows, i ∉ rec.trainXRows ∧ i ∉ rec.trainYRows) := by
    intro a b a' hP ha
    obtain ⟨rowId, colId, v, rec1, hnan, hfit, hset, hrec⟩ := vanilaStep_ok ha
    intro rec hmem
    rw [hrec] at hmem
    rcases List.mem_append.mp hmem with h1 | h2
    · exact hP rec h1
    · have : rec = rec1 := by simpa using h2
      subst this
      exact fitPredictValue_rec_disjoint hfit
  exact foldlM_inv _ hstep perm (df, []) (t', recs) (by simp) h

theorem fastTransform_ok {o : Oracle} {perm : List Nat} {df : Table}
    {cm : List String} {nanIds : List (Nat × Nat)} {it : Nat}
    {st' : Table × List FitRecord}
    (h : fastTransform o perm df cm nanIds it = Except.ok st') :
    st' = (df, ([] : List FitRecord)) := by
  unfold fastTransform at h
  cases perm with
  | nil =>
    rw [List.foldlM_nil] at h
    have : (df, ([] : List FitRecord)) = st' := by simpa [pure, Except.pure] using h
    exact this.symm
  | cons x xs =>
    rw [List.foldlM_cons] at h
    exact absurd h (by simp [fastStep, Bind.bind, Except.bind])

theorem transform_ok_diff {s : Strategy} {maxIter : Nat} {o : Oracle}
    {perm : List Nat} {df : Table} {cm : List String}
    {nanIds : List (Nat × Nat)} {it : Nat} {t' : Table} {recs : List FitRecord}
    (h : transform s maxIter o perm df cm nanIds it = Except.ok (t', recs)) :
    ∀ r c, getCell t' r c ≠ getCell df r c → (r, c) ∈ nanIds := by
  have hfast : ∀ (h' : fastTransform o perm df cm nanIds it = Except.ok (t', recs)),
      ∀ r c, getCell t' r c ≠ getCell df r c → (r, c) ∈ nanIds := by
    intro h'
    have := fastTransform_ok h'
    injection this with h1 h2
    subst h1
    exact fun r c hd => absurd rfl hd
  cases s with
  | vanila => simp only [transform] at h; exact vanilaTransform_ok_diff h
  | fast => simp only [transform] at h; exact hfast h
  | slowFast =>
    simp only [transform] at h
    split at h
    · exact hfast h
    · exact vanilaTransform_ok_diff h
  | fastSlow =>
    simp only [transform] at h
    split at h
    · exact vanilaTransform_ok_diff h
    · exact hfast h

theorem transform_ok_recs {s : Strategy} {maxIter : Nat} {o : Oracle}
    {perm : List Nat} {df : Table} {cm : List String}
    {nanIds : List (Nat × Nat)} {it : Nat} {t' : Table} {recs : List FitRecord}
    (h : transform s maxIter o perm df cm nanIds it = Except.ok (t', recs)) :
    ∀ rec ∈ recs, ∀ i ∈ rec.predictRows, i ∉ rec.trainXRows ∧ i ∉ rec.trainYRows := by
  have hfast : ∀ (h' : fastTransform o perm df cm nanIds it = Except.ok (t', recs)),
      ∀ rec ∈ recs, ∀ i ∈ rec.predictRows, i ∉ rec.trainXRows ∧ i ∉ rec.trainYRows := by
    intro h'
    have := fastTransform_ok h'
    injection this with h1 h2
    subst h2
    simp
  cases s with
  | vanila => simp only [transform] at h; exact vanilaTransform_ok_recs h
  | fast => simp only [transform] at h; exact hfast h
  | slowFast =>
    simp only [transform] at h
    split at h
    · exact hfast h
    · exact vanilaTransform_ok_recs h
  | fastSlow =>
    simp only [transform] at h
    split at h
    · exact vanilaTransform_ok_recs h
    · exact hfast h

theorem runPasses_ok_diff {s : Strategy} {maxIter : Nat} {o : Oracle}
    {perms : Nat → List Nat} {cm : List String} {nanIds : List (Nat × Nat)}
    {t₀ t' : Table} {recs : List FitRecord}
    (h : runPasses s maxIter o perms cm nanIds t₀ = Except.ok (t', recs)) :
    ∀ r c, getCell t' r c ≠ getCell t₀ r c → (r, c) ∈ nanIds := by
  unfold runPasses at h
  have hstep : ∀ (a : Table × List FitRecord) (b : Nat) a',
      (∀ r c, getCell a.1 r c ≠ getCell t₀ r c → (r, c) ∈ nanIds) →
      passStep s maxIter o perms cm nanIds a b = Except.ok a' →
      (∀ r c, getCell a'.1 r c ≠ getCell t₀ r c → (r, c) ∈ nanIds) := by
    intro a b a' hP ha
    unfold passStep at ha
    cases htr : transform s maxIter o (perms b) a.1 cm nanIds b with
    | error e => rw [htr] at ha; cases ha
    | ok p =>
      obtain ⟨t₁, recs₁⟩ := p
      rw [htr] at ha
      injection ha with ha
      subst ha
      intro r c hd
      by_cases hmid : getCell t₁ r c = getCell a.1 r c
      · rw [hmid] at hd
        exact hP r c hd
      · exact transform_ok_diff htr r c hmid
  exact foldlM_inv _ hstep (List.range maxIter) (t₀, []) (t', recs)
    (fun r c hd => absurd rfl hd) h

theorem runPasses_ok_recs {s : Strategy} {maxIter : Nat} {o : Oracle}
    {perms : Nat → List Nat} {cm : List String} {nanIds : List (Nat × Nat)}
    {t₀ t' : Table} {recs : List FitRecord}
    (h : runPasses s maxIter o perms cm nanIds t₀ = Except.ok (t', recs)) :
    ∀ rec ∈ recs, ∀ i ∈ rec.predictRows, i ∉ rec.trainXRows ∧ i ∉ rec.trainYRows := by
  unfold runPasses at h
  have hstep : ∀ (a : Table × List FitRecord) (b : Nat) a',
      (∀ rec ∈ a.2, ∀ i ∈ rec.predictRows, i ∉ rec.trainXRows ∧ i ∉ rec.trainYRows) →
      passStep s maxIter o perms cm nanIds a b = Except.ok a' →
      (∀ rec ∈ a'.2, ∀ i ∈ rec.predictRows, i ∉ rec.trainXRows ∧ i ∉ rec.trainYRows) := by
    intro a b a' hP ha
    unfold passStep at ha
    cases htr : transform s maxIter o (perms b) a.1 cm nanIds b with
    | error e => rw [htr] at ha; cases ha
    | ok p =>
      obtain ⟨t₁, recs₁⟩ := p
      rw [htr] at ha
      injection ha with ha
      subst ha
      intro rec hmem
      rcases List.mem_append.mp hmem with h1 | h2
      · exact hP rec h1
      · exact transform_ok_recs htr rec h2
  exact foldlM_inv _ hstep (List.range maxIter) (t₀, []) (t', recs) (by simp) h

/-- C4: whenever the chained-equations passes (iteration 0 to `max_iter - 1`,
starting from the mean/mode initialization, with the missing positions
captured once from the input) complete, every position of the final table
that differs from the initial imputation lies in the originally-missing
position set — no originally-observed position is ever written, under any
strategy, oracle, or drawn permutations. -/
theorem final_diff_subset_missing (s : Strategy) (maxIter : Nat) (o : Oracle)
    (perms : Nat → List Nat) (df t' : Table) (recs : List FitRecord)
    (h : runPasses s maxIter o perms (columnsMissingOf df) (nanIdsOf df)
          (impute_initial_mean_or_mode df) = Except.ok (t', recs))
    (r c : Nat)
    (hdiff : getCell t' r c ≠ getCell (impute_initial_mean_or_mode df) r c) :
    (r, c) ∈ nanIdsOf df :=
  runPasses_ok_diff h r c hdiff

theorem final_diff_subset_missing_witness : (2, 0) ∈ nanIdsOf exCatTable :=
  final_diff_subset_missing Strategy.vanila 1 catOracle (fun i => [0])
    exCatTable exAfter [exRec] rfl 2 0 (by decide)

/-- C6: in every model fit performed by any completed run of the passes —
cell-level or column-level, any strategy, oracle, and permutations — the rows
being predicted are excluded from the training feature matrix and from the
training target vector: the training row set and the predicted row set are
disjoint. -/
theorem training_excludes_predicted (s : Strategy) (maxIter : Nat) (o : Oracle)
    (perms : Nat → List Nat) (cm : List String) (nanIds : List (Nat × Nat))
    (t₀ t' : Table) (recs : List FitRecord)
    (h : runPasses s maxIter o perms cm nanIds t₀ = Except.ok (t', recs))
    (rec : FitRecord) (hrec : rec ∈ recs) (i : Nat) (hi : i ∈ rec.predictRows) :
    i ∉ rec.trainXRows ∧ i ∉ rec.trainYRows :=
  runPasses_ok_recs h rec hrec i hi

theorem training_excludes_predicted_witness :
    ¬ 2 ∈ exRec.trainXRows ∧ ¬ 2 ∈ exRec.trainYRows :=
  training_excludes_predicted Strategy.vanila 1 catOracle (fun i => [0])
    (columnsMissingOf exCatTable) (nanIdsOf exCatTable)
    (impute_initial_mean_or_mode exCatTable) exAfter [exRec] rfl
    exRec (by decide) 2 (by decide)

/-! Claim C5 -/

/-- C5: the claim says `benchmark` performs the same initial-imputation and
per-iteration transform sequence as `fill_missing_values`, differing only in
instrumentation.  The code does not: on the very same input
(`VanilaMICE`, `max_iter = 2`, a table with one missing numeric cell, any
model) `fill_missing_values` raises `TypeError` at its first 3-argument
`transform` call and performs no transform step at all, while `benchmark`,
whose line 62 passes the four arguments correctly, completes and returns one
`{iter, time_seconds, loss}` record for each iteration `0` and `1`. -/
theorem benchmark_differs_from_fill :
    (∃ msg, fill_missing_values Strategy.vanila 2 exMissing = Except.error msg)
    ∧ (benchmark Strategy.vanila 2 constOracle (fun i => [0]) exOriginal exMissing []).map
        (fun l => l.map (fun rcd => rcd.iter)) = Except.ok [0, 1] :=
  ⟨⟨_, rfl⟩, rfl⟩

/-! Claim C10 -/

theorem length_flatMap_const {α β : Type} (l : List α) (f : α → List β) (m : Nat)
    (hf : ∀ x ∈ l, (f x).length = m) : (l.flatMap f).length = l.length * m := by
  induction l with
  | nil => simp
  | cons x xs ih =>
    simp only [List.flatMap_cons, List.length_append, List.length_cons]
    rw [hf x (List.mem_cons_self x xs), ih (fun y hy => hf y (List.mem_cons_of_mem x hy))]
    ring

theorem cellsRowMajor_length (t : Table) :
    (cellsRowMajor t).length = t.nrows * ncols t := by
  unfold cellsRowMajor
  rw [length_flatMap_const _ _ (ncols t)
    (by intro x hx; rw [List.length_map, List.length_range]), List.length_range]

theorem sum_flatMap_rat {α : Type} (f : α → List Rat) (l : List α) :
    (l.flatMap f).sum = (l.map fun x => (f x).sum).sum := by
  induction l with
  | nil => simp
  | cons x xs ih => simp [List.flatMap_cons, List.sum_append, ih]

theorem zipWith_flatMap_same {α β γ δ : Type} (f : β → γ → δ)
    (g : α → List β) (h : α → List γ) (l : List α)
    (hlen : ∀ x ∈ l, (g x).length = (h x).length) :
    List.zipWith f (l.flatMap g) (l.flatMap h)
      = l.flatMap fun x => List.zipWith f (g x) (h x) := by
  induction l with
  | nil => simp
  | cons x xs ih =>
    simp only [List.flatMap_cons]
    rw [List.zipWith_append _ _ _ _ _ (hlen x (List.mem_cons_self x xs))]
    rw [ih (fun y hy => hlen y (List.mem_cons_of_mem x hy))]

theorem zipWith_map_same {α β γ δ : Type} (f : β → γ → δ)
    (g : α → β) (h : α → γ) (l : List α) :
    List.zipWith f (l.map g) (l.map h) = l.map fun x => f (g x) (h x) := by
  induction l with
  | nil => rfl
  | cons x xs ih => simp [ih]

/-- The squared-difference sum over the row-major cell lists equals the
row-by-row, cell-by-cell double sum. -/
theorem zipWith_cells_sum (a b : Table) (hn : a.nrows = b.nrows)
    (hc : ncols a = ncols b) :
    (List.zipWith (fun x y => (x - y) * (x - y))
        ((cellsRowMajor a).map toRatD) ((cellsRowMajor b).map toRatD)).sum
      = ((List.range a.nrows).map fun r =>
          (((List.range (ncols a)).map fun c =>
            (toRatD (getCell a r c) - toRatD (getCell b r c))
              * (toRatD (getCell a r c) - toRatD (getCell b r c))).sum)).sum := by
  unfold cellsRowMajor
  rw [← hn, ← hc]
  rw [List.map_flatMap, List.map_flatMap]
  rw [zipWith_flatMap_same _ _ _ _ (by intro x hx; simp [List.length_map, List.length_range])]
  rw [sum_flatMap_rat]
  refine congrArg List.sum (List.map_congr_left ?_)
  intro r hr
  rw [List.map_map, List.map_map, zipWith_map_same]
  rfl

/-- C10: `compute_loss` applies `mean_squared_error` elementwise over all
cells of all retained columns — when every retained cell of both frames is
numeric it returns the mean over all cells of the squared differences — and
is defined only in that case, so `benchmark` (here with `drop_columns_loss`
left at its falsy default, i.e. no column removed) raises rather than skips
whenever the original frame retains a non-numeric cell, for every strategy
and `max_iter >= 1`. -/
theorem compute_loss_numeric_only :
    (∀ a b : Table, a.nrows = b.nrows → ncols a = ncols b →
      (cellsRowMajor a).all isNum = true → (cellsRowMajor b).all isNum = true →
      compute_loss a b = Except.ok
        ((((List.range a.nrows).map fun r =>
            (((List.range (ncols a)).map fun c =>
              (toRatD (getCell a r c) - toRatD (getCell b r c))
                * (toRatD (getCell a r c) - toRatD (getCell b r c))).sum)).sum)
          / ((a.nrows * ncols a : Nat) : Rat)))
    ∧ (∀ (s : Strategy) (maxIter : Nat) (o : Oracle) (perms : Nat → List Nat)
        (dfOriginal dfMissing : Table), 1 ≤ maxIter →
        (∃ v ∈ cellsRowMajor dfOriginal, isNum v = false) →
        ∃ msg, benchmark s maxIter o perms dfOriginal dfMissing [] = Except.error msg) := by
  constructor
  · intro a b hn hc ha hb
    unfold compute_loss
    rw [if_pos ⟨hn, hc, ha, hb⟩]
    rw [zipWith_cells_sum a b hn hc, cellsRowMajor_length]
  · intro s maxIter o perms dfOriginal dfMissing h1 hbad
    obtain ⟨v, hv, hnum⟩ := hbad
    have hcl : ∀ t : Table, ∃ msg, compute_loss dfOriginal t = Except.error msg := by
      intro t
      unfold compute_loss
      rw [if_neg]
      · exact ⟨_, rfl⟩
      · intro hcond
        obtain ⟨h1', h2', h3', h4'⟩ := hcond
        have := List.all_eq_true.mp h3' v hv
        rw [hnum] at this
        cases this
    have hstep : ∀ (st : Table × List IterResult) (it : Nat),
        ∃ msg, benchStep s maxIter o perms dfOriginal [] (columnsMissingOf dfMissing)
          (nanIdsOf dfMissing) st it = Except.error msg := by
      intro st it
      unfold benchStep
      cases htr : transform s maxIter o (perms it) st.1 (columnsMissingOf dfMissing)
          (nanIdsOf dfMissing) it with
      | error e => exact ⟨e, rfl⟩
      | ok p =>
        obtain ⟨t₁, recs₁⟩ := p
        obtain ⟨msg, hmsg⟩ := hcl t₁
        refine ⟨msg, ?_⟩
        simp only [ne_eq, not_true_eq_false, if_false, reduceIte]
        rw [hmsg]
    obtain ⟨msg, hmsg⟩ := foldlM_error_of_steps
      (fun a b => hstep a b) (List.range maxIter)
      (impute_initial_mean_or_mode dfMissing, [])
      (by simp [List.range_eq_nil]; omega)
    refine ⟨msg, ?_⟩
    simp only [benchmark]
    rw [hmsg]

theorem compute_loss_numeric_only_witness :
    ∃ msg, benchmark Strategy.vanila 1 catOracle (fun i => [0])
      exCatTable exCatTable [] = Except.error msg :=
  compute_loss_numeric_only.2 Strategy.vanila 1 catOracle (fun i => [0])
    exCatTable exCatTable (by decide) ⟨Val.cat "a", by decide, by decide⟩

end Mice
